import Mathlib

/-!
Verification of the chanjo-backend reminder engine.

The embedding models the JavaScript source:
* times are JS epoch milliseconds (`Int`); the server clock is taken to be
  UTC, so the local-time `Date` methods (`setDate`, `setHours`,
  `toISOString`) coincide with their UTC meaning;
* `setDate(getDate() + k)` is uniform day arithmetic (JS dates have no leap
  seconds), and a fractional `k` is truncated by `ToInteger`, which for the
  nonnegative offsets produced by `parseAgeToDays` is the floor;
* `setHours(h, 0, 0, 0)` floors the time to its day start and adds `h` hours;
* the `YYYY-MM-DD` date rendering of `toISOString().split('T')[0]` is
  abstracted to the decimal string of the epoch-day index, an injective
  renaming of calendar dates;
* the DynamoDB `reminders` table is a key-value store modelled as a function
  from `reminderId` to an optional record; a batch of `DeleteRequest`s
  followed by `PutRequest`s acts pointwise, the last put for a key winning.
-/

namespace Chanjo



def msPerDay : Int := 86400000

def msPerHour : Int := 3600000

/-- Start of the UTC day containing `t` (floor to a multiple of a day),
as JS `setHours(h,0,0,0)` computes it for a UTC server clock. -/
def dayStart (t : Int) : Int := msPerDay * (Int.fdiv t msPerDay)

/-- JS `d.setHours(h, 0, 0, 0)` for a UTC clock. -/
def setHours (t : Int) (h : Int) : Int := dayStart t + h * msPerHour

/-- JS `d.setDate(d.getDate() + n)`: uniform day arithmetic. -/
def addDays (t : Int) (n : Int) : Int := t + n * msPerDay

def dayIndex (t : Int) : Int := Int.fdiv t msPerDay

/-- Stand-in for `toISOString().split('T')[0]`: the epoch-day index rendered
in decimal, an injective abstraction of the `YYYY-MM-DD` rendering. -/
def dateOnlyStr (t : Int) : String := toString (dayIndex t)

theorem dayStart_eq_ediv (t : Int) : dayStart t = msPerDay * (t / msPerDay) := by
  unfold dayStart
  rw [Int.fdiv_eq_ediv t (by norm_num [msPerDay])]

theorem dayStart_le (t : Int) : dayStart t ≤ t := by
  rw [dayStart_eq_ediv]
  simp only [msPerDay]
  omega

theorem lt_dayStart_add (t : Int) : t < dayStart t + msPerDay := by
  rw [dayStart_eq_ediv]
  simp only [msPerDay]
  omega

theorem dayStart_add_mul (t : Int) (n : Int) :
    dayStart (t + n * msPerDay) = dayStart t + n * msPerDay := by
  simp only [dayStart_eq_ediv, msPerDay]
  omega

theorem dayStart_of_dvd {t : Int} (h : msPerDay ∣ t) : dayStart t = t := by
  rw [dayStart_eq_ediv]
  simp only [msPerDay] at h ⊢
  omega

theorem dayStart_add_of_lt (t : Int) {x : Int} (h0 : 0 ≤ x) (h1 : x < msPerDay) :
    dayStart (dayStart t + x) = dayStart t := by
  simp only [dayStart_eq_ediv, msPerDay] at h1 ⊢
  omega

/-! ## Schedule Offset Calculator: `parseAgeToDays` (cron/db.js) -/

/-- JS regex `\d` class. -/
def isDigitChar (c : Char) : Bool := c.isDigit

/-- JS regex `\w` class: letters, digits and underscore. -/
def isWordChar (c : Char) : Bool := c.isAlphanum || c == '_'

/-- JS regex `\s` class, restricted to the whitespace occurring in practice. -/
def isSpaceChar (c : Char) : Bool := c == ' ' || c == '\t' || c == '\n' || c == '\r'

/-- `String.prototype.trim`. -/
def trimChars (l : List Char) : List Char :=
  ((l.dropWhile isSpaceChar).reverse.dropWhile isSpaceChar).reverse

/-- `String.prototype.toLowerCase` (ASCII inputs). -/
def toLowerChars (l : List Char) : List Char := l.map Char.toLower

/-- `parseInt(ds, 10)` on a nonempty digit string. -/
def digitsToNat (ds : List Char) : Nat :=
  ds.foldl (fun n c => 10 * n + (c.toNat - '0'.toNat)) 0

/-- The `unitMap[unit] || 0` lookup: week(s)=7, month(s)=30, year(s)=365, else 0. -/
def unitDays (u : List Char) : Nat :=
  if u = "week".data ∨ u = "weeks".data then 7
  else if u = "month".data ∨ u = "months".data then 30
  else if u = "year".data ∨ u = "years".data then 365
  else 0

/-- Match of `^(\d+)[–-](\d+)\s*(\w+)$`.  The digit runs are taken maximal;
a backtracked match of the JS regex can only differ by moving digits into
the unit group, which then fails the `unitMap` lookup and yields the same
value 0, so the computed day count is unchanged. -/
def matchRange (l : List Char) : Option (Nat × Nat × List Char) :=
  let d1 := l.takeWhile isDigitChar
  let r1 := l.dropWhile isDigitChar
  if d1 = [] then none else
  match r1 with
  | [] => none
  | c :: r2 =>
    if c = '-' ∨ c = '–' then
      let d2 := r2.takeWhile isDigitChar
      let r3 := r2.dropWhile isDigitChar
      if d2 = [] then none else
      let u := r3.dropWhile isSpaceChar
      if u ≠ [] ∧ u.all isWordChar then some (digitsToNat d1, digitsToNat d2, u)
      else none
    else none

/-- Match of `^(\d+)\s*(\w+)$`, digit run maximal (see `matchRange`). -/
def matchSingle (l : List Char) : Option (Nat × List Char) :=
  let d1 := l.takeWhile isDigitChar
  let r1 := l.dropWhile isDigitChar
  if d1 = [] then none else
  let u := r1.dropWhile isSpaceChar
  if u ≠ [] ∧ u.all isWordChar then some (digitsToNat d1, u)
  else none

/-- `parseAgeToDays` from cron/db.js.  The range form averages the two
numbers before multiplying, so the result can be a non-integral rational. -/
def parseAgeToDays (ageStr : String) : ℚ :=
  let l := toLowerChars (trimChars ageStr.data)
  if l = "birth".data then 0
  else
    match matchRange l with
    | some (a, b, u) => ((a : ℚ) + (b : ℚ)) / 2 * (unitDays u : ℚ)
    | none =>
      match matchSingle l with
      | some (n, u) => (n : ℚ) * (unitDays u : ℚ)
      | none => 0

/-- Twice `parseAgeToDays`, computed in `ℕ`.  Every value of
`parseAgeToDays` is a half-integer, so this integral twin is exact; it
exists because `ℚ` arithmetic does not reduce definitionally, while the
concrete evaluations below must compute. -/
def parseAgeToHalfDays (ageStr : String) : ℕ :=
  let l := toLowerChars (trimChars ageStr.data)
  if l = "birth".data then 0
  else
    match matchRange l with
    | some (a, b, u) => (a + b) * unitDays u
    | none =>
      match matchSingle l with
      | some (n, u) => 2 * n * unitDays u
      | none => 0

theorem parseAgeToDays_eq_halfDays (s : String) :
    parseAgeToDays s = (parseAgeToHalfDays s : ℚ) / 2 := by
  unfold parseAgeToDays parseAgeToHalfDays
  cases hb : decide (toLowerChars (trimChars s.data) = "birth".data) with
  | true => simp [of_decide_eq_true hb]
  | false =>
    have hb' := of_decide_eq_false hb
    simp only [if_neg hb']
    cases hr : matchRange (toLowerChars (trimChars s.data)) with
    | some t =>
      obtain ⟨a, b, u⟩ := t
      push_cast
      ring
    | none =>
      cases hs : matchSingle (toLowerChars (trimChars s.data)) with
      | some t =>
        obtain ⟨n, u⟩ := t
        push_cast
        ring
      | none => norm_num

/-- The day offset actually applied by `setDate(getDate() + daysOffset)`:
JS `ToInteger` truncation of the nonnegative rational offset, i.e. its
floor, computed integrally. -/
def offsetDaysInt (s : String) : Int := ((parseAgeToHalfDays s) / 2 : ℕ)

theorem offsetDaysInt_eq_floor (s : String) :
    offsetDaysInt s = Int.floor (parseAgeToDays s) := by
  rw [parseAgeToDays_eq_halfDays]
  unfold offsetDaysInt
  rw [show ((2 : ℚ)) = ((2 : ℕ) : ℚ) by norm_num]
  rw [Rat.floor_natCast_div_natCast (parseAgeToHalfDays s) 2]
  norm_cast

example : parseAgeToHalfDays "6 weeks" = 84 := rfl
example : parseAgeToHalfDays "2-4 months" = 180 := rfl
example : parseAgeToHalfDays "birth" = 0 := rfl
example : parseAgeToHalfDays "bogus" = 0 := rfl
example : parseAgeToHalfDays "1-2 weeks" = 21 := rfl
example : offsetDaysInt "6 weeks" = 42 := rfl

/-! ## Data model -/

structure ScheduleEntry where
  age : String
  vaccine : String
deriving DecidableEq, Repr

/-- A row of the `reminders` table, exactly the item shape written by the
three materialization routes (`sent` is the string flag of the source). -/
structure Reminder where
  reminderId : String
  motherId : String
  babyId : String
  vaccine : String
  vaccination_date : Int
  scheduled_at : Int
  sent : String
  type : String
deriving DecidableEq, Repr

/-! ## Due-Date Projector -/

/-- `vacDate = new Date(dob); vacDate.setDate(getDate() + parseAgeToDays(age))`. -/
def vaccinationDate (dob : Int) (e : ScheduleEntry) : Int :=
  addDays dob (offsetDaysInt e.age)

/-- `diffDays = (vacDate.getTime() - now.getTime()) / msPerDay` (fractional). -/
def diffDays (dob now : Int) (e : ScheduleEntry) : ℚ :=
  ((vaccinationDate dob e - now : Int) : ℚ) / (msPerDay : ℚ)

theorem diffDays_ge_seven_iff (dob now : Int) (e : ScheduleEntry) :
    7 ≤ diffDays dob now e ↔ 7 * msPerDay ≤ vaccinationDate dob e - now := by
  unfold diffDays
  rw [le_div_iff₀ (by norm_num [msPerDay] : (0:ℚ) < (msPerDay:ℚ))]
  constructor <;> intro h <;> exact_mod_cast h

/-- `weeklyRem = new Date(vacDate); setDate(getDate() - 7); setHours(hour,0,0,0)`. -/
def weeklyTrigger (hour : Int) (dob : Int) (e : ScheduleEntry) : Int :=
  setHours (addDays (vaccinationDate dob e) (-7)) hour

/-- `dailyRem = new Date(vacDate); setDate(getDate() - 1); setHours(hour,0,0,0)`. -/
def dailyTrigger (hour : Int) (dob : Int) (e : ScheduleEntry) : Int :=
  setHours (addDays (vaccinationDate dob e) (-1)) hour

/-- One iteration of the reminder build loop shared by the three
materialization routes, parameterized by the trigger hour (11, or 14 on the
birth-date-correction route) and by the `reminderId` maker (composite key,
or a fresh UUID on baby creation).  The `diffDays >= 7` guard is written in
its integral form, equal to the source's rational one by
`diffDays_ge_seven_iff`, so that the definition computes. -/
def weeklyReminder (mkId : String → Int → String) (hour : Int)
    (motherId babyId : String) (dob : Int) (e : ScheduleEntry) : Reminder :=
  { reminderId := mkId "weekly" (weeklyTrigger hour dob e)
    motherId := motherId
    babyId := babyId
    vaccine := e.vaccine
    vaccination_date := vaccinationDate dob e
    scheduled_at := weeklyTrigger hour dob e
    sent := "false"
    type := "weekly" }

def dailyReminder (mkId : String → Int → String) (hour : Int)
    (motherId babyId : String) (dob : Int) (e : ScheduleEntry) : Reminder :=
  { reminderId := mkId "daily" (dailyTrigger hour dob e)
    motherId := motherId
    babyId := babyId
    vaccine := e.vaccine
    vaccination_date := vaccinationDate dob e
    scheduled_at := dailyTrigger hour dob e
    sent := "false"
    type := "daily" }

def buildEntryWith (mkId : String → Int → String) (hour : Int)
    (motherId babyId : String) (dob now : Int) (e : ScheduleEntry) : List Reminder :=
  if vaccinationDate dob e ≤ now then []
  else
    (if 7 * msPerDay ≤ vaccinationDate dob e - now then
      if now < weeklyTrigger hour dob e then
        [weeklyReminder mkId hour motherId babyId dob e]
      else []
    else []) ++
    (if now < dailyTrigger hour dob e then
       [dailyReminder mkId hour motherId babyId dob e]
     else [])

theorem buildEntryWith_mem_iff (mkId : String → Int → String) (hour : Int)
    (m b : String) (dob now : Int) (e : ScheduleEntry) (r : Reminder) :
    r ∈ buildEntryWith mkId hour m b dob now e ↔
      (now < vaccinationDate dob e ∧ 7 * msPerDay ≤ vaccinationDate dob e - now
        ∧ now < weeklyTrigger hour dob e ∧ r = weeklyReminder mkId hour m b dob e)
      ∨ (now < vaccinationDate dob e ∧ now < dailyTrigger hour dob e
        ∧ r = dailyReminder mkId hour m b dob e) := by
  unfold buildEntryWith
  by_cases h1 : vaccinationDate dob e ≤ now
  · simp [h1, not_lt.mpr h1]
  · have h1' : now < vaccinationDate dob e := not_le.mp h1
    by_cases h2 : 7 * msPerDay ≤ vaccinationDate dob e - now
    · by_cases h3 : now < weeklyTrigger hour dob e
      · by_cases h4 : now < dailyTrigger hour dob e
        · simp [h1, h1', h2, h3, h4]
        · simp [h1, h1', h2, h3, h4]
      · by_cases h4 : now < dailyTrigger hour dob e
        · simp [h1, h1', h2, h3, h4]
        · simp [h1, h1', h2, h3, h4]
    · by_cases h4 : now < dailyTrigger hour dob e
      · simp [h1, h1', h2, h4]
      · simp [h1, h1', h2, h4]

/-- The deterministic composite key
`` `${babyId}#${vaccine}#${cadence}#${scheduledDateStr}` ``. -/
def compositeId (babyId vaccine : String) (cadence : String) (trig : Int) : String :=
  babyId ++ "#" ++ vaccine ++ "#" ++ cadence ++ "#" ++ dateOnlyStr trig

/-- Reminder build loop of `POST /api/baby` (cron/db.js): hour 11,
`reminderId: uuidv4()`; the fresh random UUID draws are modelled by the
function `uuid`, one value per (entry, cadence) push. -/
def buildRemindersCreate (uuid : ScheduleEntry → String → String)
    (motherId babyId : String) (dob now : Int) (sched : List ScheduleEntry) :
    List Reminder :=
  sched.flatMap (fun e =>
    buildEntryWith (fun cad _ => uuid e cad) 11 motherId babyId dob now e)

/-- Reminder build loop of `PUT /api/baby/:id/birth-date`: hour 14, composite ids. -/
def buildRemindersCorrect (motherId babyId : String) (dob now : Int)
    (sched : List ScheduleEntry) : List Reminder :=
  sched.flatMap (fun e =>
    buildEntryWith (compositeId babyId e.vaccine) 14 motherId babyId dob now e)

/-- Reminder build loop of `POST /api/reminder/:babyId`: hour 11, composite ids. -/
def buildRemindersRegen (motherId babyId : String) (dob now : Int)
    (sched : List ScheduleEntry) : List Reminder :=
  sched.flatMap (fun e =>
    buildEntryWith (compositeId babyId e.vaccine) 11 motherId babyId dob now e)

/-! ## Reminder Materializer: the store and the three routes -/

/-- The `reminders` table as a key-value map `reminderId ↦ item`. -/
abbrev Store := String → Option Reminder

/-- The item a batch of `PutRequest`s leaves under key `k`: the last put wins. -/
def findById (rs : List Reminder) (k : String) : Option Reminder :=
  rs.reverse.find? (fun r => r.reminderId == k)

/-- Net effect on the table of the `DeleteRequest` batches for every item
matching the query `pred`, followed by the `PutRequest` batches for `new`.
The 25-item chunking of the source only splits the batches and does not
change this pointwise result. -/
def applyDeleteThenPut (pred : Reminder → Bool) (new : List Reminder) (s : Store) : Store :=
  fun k =>
    match findById new k with
    | some r => some r
    | none =>
      match s k with
      | some r => if pred r then none else some r
      | none => none

/-- Delete query of `PUT /api/baby/:id/birth-date` step 2:
`babyId = :b AND sent = :false`, with no trigger-time filter. -/
def unsentOfBaby (babyId : String) (r : Reminder) : Bool :=
  r.babyId == babyId && r.sent == "false"

/-- Delete query of `POST /api/reminder/:babyId` step 2: same key condition
plus `FilterExpression: scheduled_at > :now` (ISO-string comparison, which
is chronological). -/
def unsentFutureOfBaby (babyId : String) (now : Int) (r : Reminder) : Bool :=
  r.babyId == babyId && r.sent == "false" && decide (now < r.scheduled_at)

/-- `POST /api/reminder/:babyId`: delete unsent future reminders of the
baby, rebuild from the schedule, batch-write the result. -/
def regenerateReminders (motherId babyId : String) (dob now : Int)
    (sched : List ScheduleEntry) (s : Store) : Store :=
  applyDeleteThenPut (unsentFutureOfBaby babyId now)
    (buildRemindersRegen motherId babyId dob now sched) s

/-- `PUT /api/baby/:id/birth-date` steps 2–4: delete all unsent reminders
of the baby, rebuild from the new birth date, batch-write the result. -/
def correctBirthDate (motherId babyId : String) (newDob now : Int)
    (sched : List ScheduleEntry) (s : Store) : Store :=
  applyDeleteThenPut (unsentOfBaby babyId)
    (buildRemindersCorrect motherId babyId newDob now sched) s

/-- `POST /api/baby` steps 5–6: no delete, just the batch puts of the
freshly built reminders (ids drawn from `uuid`). -/
def createBabyReminders (uuid : ScheduleEntry → String → String)
    (motherId babyId : String) (dob now : Int) (sched : List ScheduleEntry)
    (s : Store) : Store :=
  fun k =>
    match findById (buildRemindersCreate uuid motherId babyId dob now sched) k with
    | some r => some r
    | none => s k

/-! ## Claim C1: deterministic identity and idempotent materialization -/

theorem applyDeleteThenPut_idem (pred : Reminder → Bool) (new : List Reminder)
    (s : Store) :
    applyDeleteThenPut pred new (applyDeleteThenPut pred new s)
      = applyDeleteThenPut pred new s := by
  funext k
  unfold applyDeleteThenPut
  cases h : findById new k with
  | some r => simp [h]
  | none =>
    simp only [h]
    cases hs : s k with
    | none => simp
    | some r =>
      by_cases hp : pred r = true
      · simp [hp]
      · simp [hp]

/-- C1 (amended): on the two regeneration routes (`POST /api/reminder/:babyId`
and `PUT /api/baby/:id/birth-date`) reminder identities are the deterministic
composite of babyId, vaccine, cadence and trigger date, and for every fixed
input (babyId, birthDate, schedule, now) running the route twice leaves the
reminders table in exactly the state of running it once — the same set of
identities, no duplicates, no net change in count.  (The baby-creation route
is excluded: it draws random UUID identities, see the counterexample.) -/
theorem regeneration_idempotent (m b : String) (dob now : Int)
    (sched : List ScheduleEntry) (s : Store) :
    regenerateReminders m b dob now sched (regenerateReminders m b dob now sched s)
        = regenerateReminders m b dob now sched s
    ∧ correctBirthDate m b dob now sched (correctBirthDate m b dob now sched s)
        = correctBirthDate m b dob now sched s :=
  ⟨applyDeleteThenPut_idem (unsentFutureOfBaby b now)
      (buildRemindersRegen m b dob now sched) s,
    applyDeleteThenPut_idem (unsentOfBaby b)
      (buildRemindersCorrect m b dob now sched) s⟩

/-- C1 is false as stated: on the baby-creation path
(`POST /api/baby`) the reminderId is `uuidv4()`, not a composite of the
inputs.  With identical `(babyId, birthDate, schedule, now)` but the two
distinct UUID draws `uuid-a` and `uuid-b` of two runs, the first run
populates key `uuid-a` only, while the second run leaves items under both
keys: the identity set differs between runs and the reminder count doubles
instead of staying unchanged. -/
theorem creation_route_random_ids_counterexample :
    (createBabyReminders (fun _ _ => "uuid-a") "m1" "b1" 0 86400000
        [⟨"6 weeks", "bcg"⟩] (fun _ => none)) "uuid-a" ≠ none
    ∧ (createBabyReminders (fun _ _ => "uuid-a") "m1" "b1" 0 86400000
        [⟨"6 weeks", "bcg"⟩] (fun _ => none)) "uuid-b" = none
    ∧ (createBabyReminders (fun _ _ => "uuid-b") "m1" "b1" 0 86400000
        [⟨"6 weeks", "bcg"⟩]
        (createBabyReminders (fun _ _ => "uuid-a") "m1" "b1" 0 86400000
          [⟨"6 weeks", "bcg"⟩] (fun _ => none))) "uuid-a" ≠ none
    ∧ (createBabyReminders (fun _ _ => "uuid-b") "m1" "b1" 0 86400000
        [⟨"6 weeks", "bcg"⟩]
        (createBabyReminders (fun _ _ => "uuid-a") "m1" "b1" 0 86400000
          [⟨"6 weeks", "bcg"⟩] (fun _ => none))) "uuid-b" ≠ none := by
  refine ⟨?_, ?_, ?_, ?_⟩ <;> decide

/-! ## Claim C3: what the birth-date correction deletes -/

/-- Sample schedule for the concrete scenarios. -/
def sched0 : List ScheduleEntry := [⟨"6 weeks", "bcg"⟩]

/-- An unsent reminder of baby `b1` whose trigger time is already past
relative to the sample clock `now = 86400000`. -/
def rPastUnsent : Reminder :=
  ⟨"old1", "m1", "b1", "polio", 7200000, 3600000, "false", "daily"⟩

/-- An already-sent reminder of baby `b1`. -/
def rSentOld : Reminder :=
  ⟨"sent1", "m1", "b1", "hepb", 7200000, 3600000, "true", "daily"⟩

def storeC3 : Store := fun k =>
  if k = "old1" then some rPastUnsent
  else if k = "sent1" then some rSentOld
  else none

/-- C3 is false as stated: the delete query of `PUT /api/baby/:id/birth-date`
has no `scheduled_at > now` filter, so the unsent reminder `old1`, whose
trigger time 3600000 is already past at `now = 86400000`, is deleted by the
correction even though the claim says reminders already past their trigger
time are not deleted. -/
theorem correction_deletes_past_unsent_counterexample :
    storeC3 "old1" = some rPastUnsent
    ∧ rPastUnsent.sent = "false"
    ∧ rPastUnsent.scheduled_at < 86400000
    ∧ correctBirthDate "m1" "b1" 0 86400000 sched0 storeC3 "old1" = none := by
  refine ⟨rfl, rfl, by decide, by decide⟩

/-- C3 (amended): correcting a birth date deletes exactly the unsent
(`sent = "false"`) reminders of that baby — including those whose trigger
time has already passed, which the delete query does not filter out —
installs the newly built reminder set for the new birth date, and leaves
already-sent reminders and other babies' reminders unchanged at every key
the new build does not overwrite. -/
theorem correct_birthdate_amended (m b : String) (dob now : Int)
    (sched : List ScheduleEntry) (s : Store) (k : String) :
    (∀ r, findById (buildRemindersCorrect m b dob now sched) k = some r →
        correctBirthDate m b dob now sched s k = some r)
    ∧ (∀ r, s k = some r →
        findById (buildRemindersCorrect m b dob now sched) k = none →
        r.sent ≠ "false" → correctBirthDate m b dob now sched s k = some r)
    ∧ (∀ r, s k = some r →
        findById (buildRemindersCorrect m b dob now sched) k = none →
        r.babyId ≠ b → correctBirthDate m b dob now sched s k = some r)
    ∧ (∀ r, s k = some r →
        findById (buildRemindersCorrect m b dob now sched) k = none →
        r.babyId = b → r.sent = "false" →
        correctBirthDate m b dob now sched s k = none) := by
  unfold correctBirthDate applyDeleteThenPut
  refine ⟨?_, ?_, ?_, ?_⟩
  · intro r h
    simp [h]
  · intro r hk hnew hsent
    have hp : unsentOfBaby b r = false := by
      simp [unsentOfBaby, hsent]
    simp [hnew, hk, hp]
  · intro r hk hnew hb
    have hp : unsentOfBaby b r = false := by
      simp [unsentOfBaby, hb]
    simp [hnew, hk, hp]
  · intro r hk hnew hb hsent
    have hp : unsentOfBaby b r = true := by
      simp [unsentOfBaby, hb, hsent]
    simp [hnew, hk, hp]

/-- Witness for `correct_birthdate_amended`: in the concrete store, the
already-sent reminder `sent1` of baby `b1` survives the correction. -/
theorem correct_birthdate_amended_witness :
    correctBirthDate "m1" "b1" 0 86400000 sched0 storeC3 "sent1" = some rSentOld :=
  (correct_birthdate_amended "m1" "b1" 0 86400000 sched0 storeC3 "sent1").2.1
    rSentOld (by decide) (by decide) (by decide)

/-! ## Claim C9: the trigger hour of the three routes -/

theorem setHours_sub_dayStart (t hour : Int) (h0 : 0 ≤ hour) (h24 : hour < 24) :
    setHours t hour - dayStart (setHours t hour) = hour * msPerHour := by
  unfold setHours
  rw [dayStart_add_of_lt t (mul_nonneg h0 (by norm_num [msPerHour]))
    (by simp only [msPerHour, msPerDay]; omega)]
  ring

/-- C9 is false as stated: with identical `(babyId, birthDate, schedule,
now)` the birth-date-correction route schedules triggers at 14:00 while the
regeneration route schedules them at 11:00, so the two routes produce
different reminder sets. -/
theorem fixed_hour_counterexample :
    (buildRemindersCorrect "m1" "b1" 0 86400000 sched0).map (fun r => r.scheduled_at)
      ≠ (buildRemindersRegen "m1" "b1" 0 86400000 sched0).map (fun r => r.scheduled_at) := by
  decide

/-- C9 (amended): the trigger clock hour is not uniform across the
materialization paths: every `scheduled_at` written by the
birth-date-correction route is at 14:00 of its day, while every
`scheduled_at` written by the creation and regeneration routes is at 11:00,
so for identical inputs the correction route's reminder set differs from the
other two routes' whenever any reminder is produced. -/
theorem trigger_hour_amended (m b : String) (dob now : Int)
    (sched : List ScheduleEntry) :
    (∀ r ∈ buildRemindersCorrect m b dob now sched,
        r.scheduled_at - dayStart r.scheduled_at = 14 * msPerHour)
    ∧ (∀ r ∈ buildRemindersRegen m b dob now sched,
        r.scheduled_at - dayStart r.scheduled_at = 11 * msPerHour)
    ∧ (∀ u, ∀ r ∈ buildRemindersCreate u m b dob now sched,
        r.scheduled_at - dayStart r.scheduled_at = 11 * msPerHour) := by
  refine ⟨?_, ?_, ?_⟩
  · intro r hr
    rw [buildRemindersCorrect, List.mem_flatMap] at hr
    obtain ⟨e, _, hre⟩ := hr
    rcases (buildEntryWith_mem_iff _ _ _ _ _ _ _ _).mp hre with ⟨_, _, _, rfl⟩ | ⟨_, _, rfl⟩
    · exact setHours_sub_dayStart _ 14 (by norm_num) (by norm_num)
    · exact setHours_sub_dayStart _ 14 (by norm_num) (by norm_num)
  · intro r hr
    rw [buildRemindersRegen, List.mem_flatMap] at hr
    obtain ⟨e, _, hre⟩ := hr
    rcases (buildEntryWith_mem_iff _ _ _ _ _ _ _ _).mp hre with ⟨_, _, _, rfl⟩ | ⟨_, _, rfl⟩
    · exact setHours_sub_dayStart _ 11 (by norm_num) (by norm_num)
    · exact setHours_sub_dayStart _ 11 (by norm_num) (by norm_num)
  · intro u r hr
    rw [buildRemindersCreate, List.mem_flatMap] at hr
    obtain ⟨e, _, hre⟩ := hr
    rcases (buildEntryWith_mem_iff _ _ _ _ _ _ _ _).mp hre with ⟨_, _, _, rfl⟩ | ⟨_, _, rfl⟩
    · exact setHours_sub_dayStart _ 11 (by norm_num) (by norm_num)
    · exact setHours_sub_dayStart _ 11 (by norm_num) (by norm_num)

/-- Witness for `trigger_hour_amended`: the daily reminder the correction
route writes in the concrete scenario is scheduled at 14:00 of its day. -/
theorem trigger_hour_amended_witness :
    (dailyReminder (compositeId "b1" "bcg") 14 "m1" "b1" 0 ⟨"6 weeks", "bcg"⟩).scheduled_at
        - dayStart (dailyReminder (compositeId "b1" "bcg") 14 "m1" "b1" 0
            ⟨"6 weeks", "bcg"⟩).scheduled_at = 14 * msPerHour :=
  (trigger_hour_amended "m1" "b1" 0 86400000 sched0).1 _ (by decide)

/-! ## Claim C8: invariants of every generated reminder -/

theorem weeklyTrigger_lt_vacc (dob : Int) (e : ScheduleEntry) {hour : Int}
    (h24 : hour < 24) :
    weeklyTrigger hour dob e < vaccinationDate dob e := by
  unfold weeklyTrigger setHours addDays
  have h := dayStart_le (vaccinationDate dob e + (-7) * msPerDay)
  simp only [msPerDay, msPerHour] at h ⊢
  omega

theorem dailyTrigger_lt_vacc (dob : Int) (e : ScheduleEntry) {hour : Int}
    (h24 : hour < 24) :
    dailyTrigger hour dob e < vaccinationDate dob e := by
  unfold dailyTrigger setHours addDays
  have h := dayStart_le (vaccinationDate dob e + (-1) * msPerDay)
  simp only [msPerDay, msPerHour] at h ⊢
  omega

theorem buildEntry_invariants (mkId : String → Int → String) {hour : Int}
    (h24 : hour < 24) (m b : String) (dob now : Int) (e : ScheduleEntry) :
    ∀ r ∈ buildEntryWith mkId hour m b dob now e,
      now < r.vaccination_date ∧ now < r.scheduled_at
        ∧ r.scheduled_at < r.vaccination_date := by
  intro r hr
  rcases (buildEntryWith_mem_iff _ _ _ _ _ _ _ _).mp hr with
    ⟨h1, _, h3, rfl⟩ | ⟨h1, h3, rfl⟩
  · exact ⟨h1, h3, weeklyTrigger_lt_vacc dob e h24⟩
  · exact ⟨h1, h3, dailyTrigger_lt_vacc dob e h24⟩

/-- C8: every reminder record written by any of the three materialization
paths satisfies, at generation time: its vaccination date is strictly after
`now`, its trigger `scheduled_at` is strictly after `now`, and the trigger
is strictly before the vaccination date; and a schedule entry whose
projected vaccination date is at or before `now` produces no reminder at
all. -/
theorem generated_reminder_invariants (u : ScheduleEntry → String → String)
    (m b : String) (dob now : Int) (sched : List ScheduleEntry) :
    (∀ r ∈ buildRemindersCreate u m b dob now sched,
        now < r.vaccination_date ∧ now < r.scheduled_at
          ∧ r.scheduled_at < r.vaccination_date)
    ∧ (∀ r ∈ buildRemindersCorrect m b dob now sched,
        now < r.vaccination_date ∧ now < r.scheduled_at
          ∧ r.scheduled_at < r.vaccination_date)
    ∧ (∀ r ∈ buildRemindersRegen m b dob now sched,
        now < r.vaccination_date ∧ now < r.scheduled_at
          ∧ r.scheduled_at < r.vaccination_date)
    ∧ (∀ (mkId : String → Int → String) (hour : Int), ∀ e ∈ sched,
        vaccinationDate dob e ≤ now →
        buildEntryWith mkId hour m b dob now e = []) := by
  refine ⟨?_, ?_, ?_, ?_⟩
  · intro r hr
    rw [buildRemindersCreate, List.mem_flatMap] at hr
    obtain ⟨e, _, hre⟩ := hr
    exact buildEntry_invariants _ (by norm_num) m b dob now e r hre
  · intro r hr
    rw [buildRemindersCorrect, List.mem_flatMap] at hr
    obtain ⟨e, _, hre⟩ := hr
    exact buildEntry_invariants _ (by norm_num) m b dob now e r hre
  · intro r hr
    rw [buildRemindersRegen, List.mem_flatMap] at hr
    obtain ⟨e, _, hre⟩ := hr
    exact buildEntry_invariants _ (by norm_num) m b dob now e r hre
  · intro mkId hour e _ hle
    unfold buildEntryWith
    simp [hle]

/-- Witness for `generated_reminder_invariants`: the concrete daily reminder
produced on baby creation in the sample scenario satisfies all three
inequalities. -/
theorem generated_reminder_invariants_witness :
    86400000 < (dailyReminder (fun _ _ => "u") 11 "m1" "b1" 0
        ⟨"6 weeks", "bcg"⟩).vaccination_date
    ∧ 86400000 < (dailyReminder (fun _ _ => "u") 11 "m1" "b1" 0
        ⟨"6 weeks", "bcg"⟩).scheduled_at
    ∧ (dailyReminder (fun _ _ => "u") 11 "m1" "b1" 0
        ⟨"6 weeks", "bcg"⟩).scheduled_at
      < (dailyReminder (fun _ _ => "u") 11 "m1" "b1" 0
        ⟨"6 weeks", "bcg"⟩).vaccination_date :=
  (generated_reminder_invariants (fun _ _ => "u") "m1" "b1" 0 86400000 sched0).1
    _ (by decide)

/-! ## Claim C6: the weekly threshold -/

/-- C6: a weekly candidate for a schedule entry is materialized exactly when
the fractional day difference `diffDays` is at least 7 and its trigger time
is still in the future; a vaccination date exactly 7 days from `now` yields
a materialized weekly candidate (birth dates are stored at midnight, whence
the divisibility hypothesis, and then `now` is itself a midnight whose 11:00
trigger is still ahead); a vaccination date 6.99 days from `now` yields no
weekly candidate. -/
theorem weekly_threshold (mkId : String → Int → String) (m b : String)
    (dob now : Int) (e : ScheduleEntry) :
    ((∃ r ∈ buildEntryWith mkId 11 m b dob now e, r.type = "weekly")
        ↔ (7 ≤ diffDays dob now e ∧ now < weeklyTrigger 11 dob e))
    ∧ (msPerDay ∣ dob → vaccinationDate dob e - now = 7 * msPerDay →
        ∃ r ∈ buildEntryWith mkId 11 m b dob now e, r.type = "weekly")
    ∧ ((vaccinationDate dob e - now) * 100 = 699 * msPerDay →
        ¬ ∃ r ∈ buildEntryWith mkId 11 m b dob now e, r.type = "weekly") := by
  have hiff : (∃ r ∈ buildEntryWith mkId 11 m b dob now e, r.type = "weekly")
      ↔ (7 ≤ diffDays dob now e ∧ now < weeklyTrigger 11 dob e) := by
    constructor
    · rintro ⟨r, hr, ht⟩
      rcases (buildEntryWith_mem_iff _ _ _ _ _ _ _ _).mp hr with
        ⟨_, h2, h3, rfl⟩ | ⟨_, _, rfl⟩
      · exact ⟨(diffDays_ge_seven_iff dob now e).mpr h2, h3⟩
      · simp [dailyReminder] at ht
    · rintro ⟨h7, h3⟩
      have h2 := (diffDays_ge_seven_iff dob now e).mp h7
      have h1 : now < vaccinationDate dob e := by
        simp only [msPerDay] at h2
        omega
      exact ⟨weeklyReminder mkId 11 m b dob e,
        (buildEntryWith_mem_iff _ _ _ _ _ _ _ _).mpr (Or.inl ⟨h1, h2, h3, rfl⟩), rfl⟩
  refine ⟨hiff, ?_, ?_⟩
  · intro hdvd h7
    apply hiff.mpr
    have hv : msPerDay ∣ vaccinationDate dob e := by
      unfold vaccinationDate addDays
      exact dvd_add hdvd (dvd_mul_left msPerDay (offsetDaysInt e.age))
    have hnow : vaccinationDate dob e + (-7) * msPerDay = now := by omega
    have hnowdvd : msPerDay ∣ now := by
      rw [← hnow]
      exact dvd_add hv (dvd_mul_left msPerDay (-7))
    constructor
    · rw [diffDays_ge_seven_iff]
      omega
    · unfold weeklyTrigger setHours addDays
      rw [hnow, dayStart_of_dvd hnowdvd]
      simp only [msPerHour]
      omega
  · intro h699 hex
    obtain ⟨h7, _⟩ := hiff.mp hex
    rw [diffDays_ge_seven_iff] at h7
    simp only [msPerDay] at h7 h699
    omega

/-- Witness for `weekly_threshold`: with a midnight birth date and `now`
exactly 7 days before the 6-week vaccination date, the weekly candidate is
materialized. -/
theorem weekly_threshold_witness :
    ∃ r ∈ buildEntryWith (fun _ _ => "w") 11 "m1" "b1" 0 3024000000
        ⟨"6 weeks", "bcg"⟩, r.type = "weekly" :=
  (weekly_threshold (fun _ _ => "w") "m1" "b1" 0 3024000000 ⟨"6 weeks", "bcg"⟩).2.1
    (dvd_zero msPerDay) (by decide)

/-! ## Due-Reminder Processor (cron/daily.js; cron/weekly.js is the same
loop with the `weekly` cadence tag) -/

/-- A `mothers` table row, restricted to what the processor reads:
`mother.full_name` and `mother.user?.email`. -/
structure MotherRec where
  full_name : String
  email : Option String
deriving DecidableEq, Repr

/-- A message handed to `transporter.sendMail`. -/
structure EmailMsg where
  toEmail : String
  subject : String
  html : String
deriving DecidableEq, Repr

/-- `reminders.map(r => "<li><strong>" + r.vaccine + "</strong></li>").join('')`. -/
def reminderListHtml (rems : List Reminder) : String :=
  String.join (rems.map (fun r => "<li><strong>" ++ r.vaccine ++ "</strong></li>"))

/-- `new Date(reminders[0].vaccination_date)` rendered by `toDateString()`,
abstracted by `dateOnlyStr`; the groups the handler builds are never empty,
so the empty-list default is inert. -/
def groupDateStr (rems : List Reminder) : String :=
  dateOnlyStr (match rems with
    | [] => 0
    | r :: _ => r.vaccination_date)

/-- The html template literal of `sendCombinedReminderEmail` (the div's
style attribute is elided). -/
def combinedEmailHtml (fullName dateStr : String) (rems : List Reminder) : String :=
  "<div><p>Dear " ++ fullName
    ++ ",</p><p>Your baby has these vaccines due on " ++ dateStr
    ++ ":</p><ul>" ++ reminderListHtml rems
    ++ "</ul><p>Regards,<br/>Chanjo Team</p></div>"

/-- `sendCombinedReminderEmail`: one message whose subject and heading use
the first reminder's vaccination date and whose body lists every vaccine of
the group. -/
def combinedEmail (email fullName : String) (rems : List Reminder) : EmailMsg :=
  { toEmail := email
    subject := "Vaccinations due on " ++ groupDateStr rems
    html := combinedEmailHtml fullName (groupDateStr rems) rems }

/-- The keys of the `reduce`-built grouping object, in first-occurrence
order (JS object key order for string keys). -/
def motherKeys (rs : List Reminder) : List String :=
  rs.foldl (fun acc r => if r.motherId ∈ acc then acc else acc ++ [r.motherId]) []

/-- The grouping `dailyByMother`: each motherId once, with its reminders in
query order. -/
def groupByMother (rs : List Reminder) : List (String × List Reminder) :=
  (motherKeys rs).map (fun mid => (mid, rs.filter (fun r => r.motherId == mid)))

/-- The guard `if (!mother || !mother.user?.email)` of the per-mother loop:
the contact `(email, full_name)` when the mother record exists and carries a
non-empty email (the empty string is falsy in JS). -/
def contactOf (mothers : String → Option MotherRec) (mid : String) :
    Option (String × String) :=
  match mothers mid with
  | none => none
  | some mrec =>
    match mrec.email with
    | none => none
    | some e => if e = "" then none else some (e, mrec.full_name)

/-- `UpdateCommand ... SET sent = :true` for one reminderId.  The update
always targets a reminder just read from the table, so the absent-key upsert
DynamoDB would perform never occurs and is modelled as a no-op. -/
def markSentKey (s : Store) (k : String) : Store :=
  fun k2 =>
    if k2 = k then
      match s k with
      | some x => some { x with sent := "true" }
      | none => none
    else s k2

/-- The mark-sent loop over one recipient group. -/
def markGroup (s : Store) (rems : List Reminder) : Store :=
  rems.foldl (fun st r => markSentKey st r.reminderId) s

/-- Outcome of one processor invocation: `ok` is statusCode 200 vs the
outer catch's 500, `store` the reminders table afterwards, `emails` the
dispatch log in order, keyed by motherId. -/
structure RunResult where
  ok : Bool
  store : Store
  emails : List (String × EmailMsg)

/-- The per-mother loop of the handler.  A missing or contact-less mother is
skipped (`continue`); a successful dispatch appends the combined email to
the log and marks every reminder of the group sent; a dispatch failure
(`sendMail` throwing, modelled by `sendOk mid = false`) aborts the loop —
there is no per-group catch — and the outer catch turns the run into a 500
response, keeping the mutations of the groups already processed. -/
def processGroups (mothers : String → Option MotherRec) (sendOk : String → Bool)
    (groups : List (String × List Reminder)) (s : Store)
    (log : List (String × EmailMsg)) : RunResult :=
  match groups with
  | [] => ⟨true, s, log⟩
  | (mid, rems) :: rest =>
    match contactOf mothers mid with
    | none => processGroups mothers sendOk rest s log
    | some c =>
      if sendOk mid then
        processGroups mothers sendOk rest (markGroup s rems)
          (log ++ [(mid, combinedEmail c.1 c.2 rems)])
      else ⟨false, s, log⟩

/-- One processor invocation over the due-query result `due` (the unsent
reminders of the cadence with `scheduled_at <= now`): the no-op case, the
grouping, and the per-mother loop. -/
def processorRun (mothers : String → Option MotherRec) (sendOk : String → Bool)
    (due : List Reminder) (s : Store) : RunResult :=
  if due = [] then ⟨true, s, []⟩
  else processGroups mothers sendOk (groupByMother due) s []

/-! ## Claim C2: failure isolation in the processor -/

def rDueA : Reminder := ⟨"ra", "mA", "b1", "bcg", 7200000, 3600000, "false", "daily"⟩

def rDueB : Reminder := ⟨"rb", "mB", "b2", "polio", 7200000, 3600000, "false", "daily"⟩

def mothersC2 : String → Option MotherRec := fun mid =>
  if mid = "mA" then some ⟨"Alice Doe", some "a@example.com"⟩
  else if mid = "mB" then some ⟨"Betty Doe", some "b@example.com"⟩
  else none

def storeC2 : Store := fun k =>
  if k = "ra" then some rDueA else if k = "rb" then some rDueB else none

/-- C2 is false as stated: a notification-dispatch error is not isolated to
its recipient group.  With two due groups (mothers `mA`, `mB`, both
resolvable) and the dispatch to `mA` failing, the loop has no per-group
catch, so the whole run returns 500 (`ok = false`), nothing is dispatched,
and `mB`'s group is never processed — its reminder `rb` stays unsent —
where the claim promises the run ends successfully with only the failing
group skipped. -/
theorem dispatch_failure_not_isolated_counterexample :
    (processorRun mothersC2 (fun mid => mid != "mA") [rDueA, rDueB] storeC2).ok = false
    ∧ (processorRun mothersC2 (fun mid => mid != "mA") [rDueA, rDueB] storeC2).emails = []
    ∧ (processorRun mothersC2 (fun mid => mid != "mA") [rDueA, rDueB] storeC2).store "rb"
        = some rDueB := by
  refine ⟨by decide, by decide, by decide⟩

/-! ## Processor run characterization (for C2 and C4) -/

def setSentTrue (x : Reminder) : Reminder := { x with sent := "true" }

theorem setSentTrue_comp : setSentTrue ∘ setSentTrue = setSentTrue :=
  funext fun _ => rfl

theorem map_setSentTrue_idem (o : Option Reminder) :
    (o.map setSentTrue).map setSentTrue = o.map setSentTrue := by
  cases o <;> rfl

theorem markSentKey_apply (s : Store) (kr k : String) :
    markSentKey s kr k = if k = kr then (s kr).map setSentTrue else s k := by
  unfold markSentKey
  by_cases h : k = kr
  · subst h
    simp only [if_pos rfl]
    cases s k <;> rfl
  · simp [h]

theorem markGroup_apply (s : Store) (rems : List Reminder) (k : String) :
    markGroup s rems k =
      if rems.any (fun r => r.reminderId == k) then (s k).map setSentTrue
      else s k := by
  induction rems generalizing s with
  | nil => simp [markGroup]
  | cons r rest ih =>
    show markGroup (markSentKey s r.reminderId) rest k = _
    rw [ih]
    by_cases hk : k = r.reminderId
    · have hkb : (r.reminderId == k) = true := by simp [hk]
      by_cases ha : rest.any (fun r2 => r2.reminderId == k) = true
      · simp [ha, hkb, markSentKey_apply, hk, map_setSentTrue_idem,
          setSentTrue_comp]
      · simp [ha, hkb, markSentKey_apply, hk, map_setSentTrue_idem,
          setSentTrue_comp]
    · have hkb : (r.reminderId == k) = false := by
        simp only [beq_eq_false_iff_ne, ne_eq]
        exact fun h => hk h.symm
      by_cases ha : rest.any (fun r2 => r2.reminderId == k) = true
      · simp [ha, hkb, markSentKey_apply, hk, map_setSentTrue_idem,
          setSentTrue_comp]
      · simp [ha, hkb, markSentKey_apply, hk, map_setSentTrue_idem,
          setSentTrue_comp]

theorem processGroups_all_ok (mothers : String → Option MotherRec)
    (sendOk : String → Bool) (groups : List (String × List Reminder))
    (s : Store) (log : List (String × EmailMsg))
    (hall : ∀ mid, sendOk mid = true) :
    (processGroups mothers sendOk groups s log).ok = true
    ∧ (processGroups mothers sendOk groups s log).emails
        = log ++ groups.filterMap (fun g => (contactOf mothers g.1).map
            (fun c => (g.1, combinedEmail c.1 c.2 g.2)))
    ∧ ∀ k, (processGroups mothers sendOk groups s log).store k
        = if groups.any (fun g => (contactOf mothers g.1).isSome
              && g.2.any (fun r => r.reminderId == k))
          then (s k).map setSentTrue else s k := by
  induction groups generalizing s log with
  | nil => simp [processGroups]
  | cons g rest ih =>
    obtain ⟨mid, rems⟩ := g
    cases hc : contactOf mothers mid with
    | none =>
      simp only [processGroups, hc]
      refine ⟨(ih s log).1, ?_, ?_⟩
      · rw [(ih s log).2.1]
        simp [hc]
      · intro k
        rw [(ih s log).2.2 k]
        by_cases hb : rest.any (fun g2 => (contactOf mothers g2.1).isSome
            && g2.2.any (fun r => r.reminderId == k)) = true
        · simp [hb, hc]
        · simp [hb, hc]
    | some c =>
      simp only [processGroups, hc, hall mid, if_true]
      refine ⟨(ih _ _).1, ?_, ?_⟩
      · rw [(ih _ _).2.1]
        simp [hc]
      · intro k
        rw [(ih _ _).2.2 k, markGroup_apply]
        by_cases ha : rems.any (fun r => r.reminderId == k) = true
        · by_cases hb : rest.any (fun g2 => (contactOf mothers g2.1).isSome
              && g2.2.any (fun r => r.reminderId == k)) = true
          · simp [ha, hb, hc, map_setSentTrue_idem, setSentTrue_comp]
          · simp [ha, hb, hc]
        · by_cases hb : rest.any (fun g2 => (contactOf mothers g2.1).isSome
              && g2.2.any (fun r => r.reminderId == k)) = true
          · simp [ha, hb, hc]
          · simp [ha, hb, hc]

theorem motherKeys_nodup (rs : List Reminder) : (motherKeys rs).Nodup := by
  have aux : ∀ (l : List Reminder) (acc : List String), acc.Nodup →
      (l.foldl (fun acc r => if r.motherId ∈ acc then acc else acc ++ [r.motherId]) acc).Nodup := by
    intro l
    induction l with
    | nil => intro acc h; exact h
    | cons r rest ih =>
      intro acc h
      apply ih
      by_cases hm : r.motherId ∈ acc
      · simpa [hm] using h
      · simp only [if_neg hm]
        rw [List.nodup_append]
        refine ⟨h, List.nodup_singleton _, fun a ha hb => ?_⟩
        rw [List.mem_singleton] at hb
        exact hm (hb ▸ ha)
  exact aux rs [] List.nodup_nil

/-- C2 (amended): only contact-lookup failures are isolated: a missing
mother record or missing email makes the loop `continue`, skipping exactly
that group's dispatch and marking while every other group is processed, and
a run whose dispatches all succeed ends with status 200; but a
notification-dispatch error is NOT isolated — it aborts the loop and fails
the whole run with a 500 (see the counterexample; the first weekly handler
variant even fails the whole run on its contact check, which references an
undefined `email` variable). -/
theorem contact_skip_isolated (mothers : String → Option MotherRec)
    (sendOk : String → Bool) (due : List Reminder) (s : Store)
    (hall : ∀ mid, sendOk mid = true) :
    (processorRun mothers sendOk due s).ok = true
    ∧ (∀ mid ∈ motherKeys due, ∀ c, contactOf mothers mid = some c →
        (mid, combinedEmail c.1 c.2 (due.filter (fun r => r.motherId == mid)))
          ∈ (processorRun mothers sendOk due s).emails)
    ∧ (∀ r ∈ due, contactOf mothers r.motherId = none →
        (∀ r2 ∈ due, r2.reminderId = r.reminderId → r2.motherId = r.motherId) →
        (processorRun mothers sendOk due s).store r.reminderId
          = s r.reminderId) := by
  unfold processorRun
  by_cases hdue : due = []
  · subst hdue
    refine ⟨by simp, ?_, ?_⟩
    · intro mid hmid
      simp [motherKeys] at hmid
    · intro r hr
      simp at hr
  · simp only [if_neg hdue]
    have H := processGroups_all_ok mothers sendOk (groupByMother due) s [] hall
    refine ⟨H.1, ?_, ?_⟩
    · intro mid hmid c hc
      rw [H.2.1]
      simp only [List.nil_append]
      apply List.mem_filterMap.mpr
      refine ⟨(mid, due.filter (fun r => r.motherId == mid)), ?_, ?_⟩
      · exact List.mem_map.mpr ⟨mid, hmid, rfl⟩
      · simp [hc]
    · intro r hr hnone huniq
      rw [H.2.2]
      apply if_neg
      intro hany
      rw [List.any_eq_true] at hany
      obtain ⟨g, hg, hgp⟩ := hany
      rw [groupByMother, List.mem_map] at hg
      obtain ⟨mid2, _, rfl⟩ := hg
      rw [Bool.and_eq_true] at hgp
      obtain ⟨hsome, hany2⟩ := hgp
      rw [List.any_eq_true] at hany2
      obtain ⟨r2, hr2mem, hr2id⟩ := hany2
      rw [List.mem_filter] at hr2mem
      obtain ⟨hr2due, hr2mid⟩ := hr2mem
      rw [beq_iff_eq] at hr2id hr2mid
      have hm2 : r2.motherId = r.motherId := huniq r2 hr2due hr2id
      rw [hr2mid] at hm2
      rw [hm2] at hsome
      simp [hnone] at hsome

/-- Witness for `contact_skip_isolated`: in the concrete run with mothers
`mA` (resolvable) and `mC` (no record), the run succeeds and `mC`'s
reminder is left untouched. -/
theorem contact_skip_isolated_witness :
    (processorRun mothersC2 (fun _ => true)
        [rDueA, ⟨"rc", "mC", "b3", "opv", 7200000, 3600000, "false", "daily"⟩]
        storeC2).ok = true
    ∧ (processorRun mothersC2 (fun _ => true)
        [rDueA, ⟨"rc", "mC", "b3", "opv", 7200000, 3600000, "false", "daily"⟩]
        storeC2).store "rc" = storeC2 "rc" :=
  ⟨(contact_skip_isolated mothersC2 (fun _ => true)
      [rDueA, ⟨"rc", "mC", "b3", "opv", 7200000, 3600000, "false", "daily"⟩]
      storeC2 (fun _ => rfl)).1,
    (contact_skip_isolated mothersC2 (fun _ => true)
      [rDueA, ⟨"rc", "mC", "b3", "opv", 7200000, 3600000, "false", "daily"⟩]
      storeC2 (fun _ => rfl)).2.2
      ⟨"rc", "mC", "b3", "opv", 7200000, 3600000, "false", "daily"⟩
      (by decide) (by decide) (by decide)⟩

/-! ## Claim C4: grouped dispatch -/

theorem str_data_append (a b : String) : (a ++ b).data = a.data ++ b.data := by
  obtain ⟨u⟩ := a
  obtain ⟨v⟩ := b
  rfl

theorem str_empty_append (a : String) : "" ++ a = a := by
  obtain ⟨u⟩ := a
  rfl

theorem str_append_empty (a : String) : a ++ "" = a := by
  obtain ⟨u⟩ := a
  show String.mk (u ++ []) = String.mk u
  rw [List.append_nil]

theorem str_append_assoc (a b c : String) : a ++ b ++ c = a ++ (b ++ c) := by
  obtain ⟨u⟩ := a
  obtain ⟨v⟩ := b
  obtain ⟨w⟩ := c
  show String.mk (u ++ v ++ w) = String.mk (u ++ (v ++ w))
  rw [List.append_assoc]

theorem str_join_cons (x : String) (xs : List String) :
    String.join (x :: xs) = x ++ String.join xs := by
  have gen : ∀ (ys : List String) (a : String),
      List.foldl (fun r s2 => r ++ s2) a ys
        = a ++ List.foldl (fun r s2 => r ++ s2) "" ys := by
    intro ys
    induction ys with
    | nil => intro a; simp [str_append_empty]
    | cons y ys ih =>
      intro a
      rw [List.foldl_cons, ih (a ++ y), List.foldl_cons, ih ("" ++ y),
        str_empty_append, str_append_assoc]
  show List.foldl (fun r s2 => r ++ s2) ("" ++ x) xs
      = x ++ List.foldl (fun r s2 => r ++ s2) "" xs
  rw [str_empty_append, gen xs x]

theorem vaccine_decomp (rems : List Reminder) :
    ∀ v ∈ rems.map (fun r => r.vaccine), ∃ pre post,
      (reminderListHtml rems).data = pre ++ v.data ++ post := by
  induction rems with
  | nil =>
    intro v hv
    simp at hv
  | cons r rest ih =>
    intro v hv
    rw [List.map_cons, List.mem_cons] at hv
    have hjoin : reminderListHtml (r :: rest)
        = ("<li><strong>" ++ r.vaccine ++ "</strong></li>") ++ reminderListHtml rest := by
      unfold reminderListHtml
      rw [List.map_cons, str_join_cons]
    rcases hv with rfl | hv
    · refine ⟨"<li><strong>".data,
        "</strong></li>".data ++ (reminderListHtml rest).data, ?_⟩
      rw [hjoin]
      simp [str_data_append, List.append_assoc]
    · obtain ⟨p, q, hpq⟩ := ih v hv
      refine ⟨("<li><strong>" ++ r.vaccine ++ "</strong></li>").data ++ p, q, ?_⟩
      rw [hjoin, str_data_append, hpq]
      simp [List.append_assoc]

theorem combinedEmail_mentions_vaccines (email fullName : String)
    (rems : List Reminder) :
    ∀ v ∈ rems.map (fun r => r.vaccine), ∃ pre post,
      (combinedEmail email fullName rems).html.data = pre ++ v.data ++ post := by
  intro v hv
  obtain ⟨p, q, hpq⟩ := vaccine_decomp rems v hv
  refine ⟨("<div><p>Dear " ++ fullName
      ++ ",</p><p>Your baby has these vaccines due on " ++ groupDateStr rems
      ++ ":</p><ul>").data ++ p,
    q ++ "</ul><p>Regards,<br/>Chanjo Team</p></div>".data, ?_⟩
  show (combinedEmailHtml fullName (groupDateStr rems) rems).data = _
  unfold combinedEmailHtml
  simp [str_data_append, hpq, List.append_assoc]

theorem filter_emails_not_mem (mothers : String → Option MotherRec)
    (keys : List String) (due : List Reminder) (mid : String)
    (hmem : mid ∉ keys) :
    ((keys.map (fun m2 => (m2, due.filter (fun r => r.motherId == m2)))).filterMap
        (fun g => (contactOf mothers g.1).map
          (fun c => (g.1, combinedEmail c.1 c.2 g.2)))).filter
      (fun p => p.1 == mid) = [] := by
  induction keys with
  | nil => rfl
  | cons k rest ih =>
    have hk : k ≠ mid := fun h => hmem (h ▸ List.mem_cons_self k rest)
    have hrest : mid ∉ rest := fun h => hmem (List.mem_cons_of_mem _ h)
    rw [List.map_cons, List.filterMap_cons]
    cases hck : contactOf mothers k with
    | none => exact ih hrest
    | some c2 =>
      have hstep : Option.map (fun c => ((k : String), combinedEmail c.1 c.2
            (due.filter (fun r => r.motherId == k)))) (some c2)
          = some (k, combinedEmail c2.1 c2.2
            (due.filter (fun r => r.motherId == k))) := rfl
      rw [hstep, List.filter_cons_of_neg (by simp [hk])]
      exact ih hrest

theorem filter_emails_of_mem (mothers : String → Option MotherRec)
    (keys : List String) (due : List Reminder) (mid : String)
    (c : String × String) (hnd : keys.Nodup) (hmem : mid ∈ keys)
    (hc : contactOf mothers mid = some c) :
    ((keys.map (fun m2 => (m2, due.filter (fun r => r.motherId == m2)))).filterMap
        (fun g => (contactOf mothers g.1).map
          (fun c2 => (g.1, combinedEmail c2.1 c2.2 g.2)))).filter
      (fun p => p.1 == mid)
      = [(mid, combinedEmail c.1 c.2 (due.filter (fun r => r.motherId == mid)))] := by
  induction keys with
  | nil => simp at hmem
  | cons k rest ih =>
    rw [List.nodup_cons] at hnd
    obtain ⟨hknotin, hndrest⟩ := hnd
    rw [List.map_cons, List.filterMap_cons]
    by_cases hk : k = mid
    · subst hk
      rw [hc]
      have hstep : Option.map (fun c2 => ((k : String), combinedEmail c2.1 c2.2
            (due.filter (fun r => r.motherId == k)))) (some c)
          = some (k, combinedEmail c.1 c.2
            (due.filter (fun r => r.motherId == k))) := rfl
      rw [hstep, List.filter_cons_of_pos (by simp)]
      rw [filter_emails_not_mem mothers rest due k hknotin]
    · have hmem2 : mid ∈ rest := by
        rcases List.mem_cons.mp hmem with h | h
        · exact absurd h.symm hk
        · exact h
      cases hck : contactOf mothers k with
      | none => exact ih hndrest hmem2
      | some c2 =>
        have hstep : Option.map (fun c2 => ((k : String), combinedEmail c2.1 c2.2
              (due.filter (fun r => r.motherId == k)))) (some c2)
            = some (k, combinedEmail c2.1 c2.2
              (due.filter (fun r => r.motherId == k))) := rfl
        rw [hstep, List.filter_cons_of_neg (by simp [hk])]
        exact ih hndrest hmem2

/-- C4: in a processor run in which due, unsent reminders of one cadence
belong to recipient `mid` (whose contact resolves, all dispatches
succeeding), exactly one notification is issued for that recipient — the
dispatch log filtered to `mid` is exactly one combined message for the whole
group — the message body references every vaccine of the group, and after
the dispatch every reminder of the group is marked `sent = "true"`. -/
theorem grouped_dispatch (mothers : String → Option MotherRec)
    (sendOk : String → Bool) (due : List Reminder) (s : Store)
    (mid : String) (c : String × String)
    (hall : ∀ m2, sendOk m2 = true)
    (hc : contactOf mothers mid = some c)
    (hmid : mid ∈ motherKeys due) :
    ((processorRun mothers sendOk due s).emails.filter (fun p => p.1 == mid))
      = [(mid, combinedEmail c.1 c.2 (due.filter (fun r => r.motherId == mid)))]
    ∧ (∀ v ∈ (due.filter (fun r => r.motherId == mid)).map (fun r => r.vaccine),
        ∃ pre post,
          (combinedEmail c.1 c.2 (due.filter (fun r => r.motherId == mid))).html.data
            = pre ++ v.data ++ post)
    ∧ (∀ r ∈ due, r.motherId = mid →
        (processorRun mothers sendOk due s).store r.reminderId
          = (s r.reminderId).map setSentTrue) := by
  have hdue : due ≠ [] := by
    intro h
    subst h
    simp [motherKeys] at hmid
  unfold processorRun
  rw [if_neg hdue]
  have H := processGroups_all_ok mothers sendOk (groupByMother due) s [] hall
  refine ⟨?_, ?_, ?_⟩
  · rw [H.2.1]
    simp only [List.nil_append]
    rw [groupByMother]
    exact filter_emails_of_mem mothers (motherKeys due) due mid c
      (motherKeys_nodup due) hmid hc
  · exact combinedEmail_mentions_vaccines c.1 c.2 _
  · intro r hr hrm
    have hcond : ((groupByMother due).any fun g =>
        (contactOf mothers g.1).isSome
          && g.2.any fun r2 => r2.reminderId == r.reminderId) = true := by
      rw [List.any_eq_true]
      refine ⟨(mid, due.filter (fun r2 => r2.motherId == mid)), ?_, ?_⟩
      · rw [groupByMother]
        exact List.mem_map.mpr ⟨mid, hmid, rfl⟩
      · rw [Bool.and_eq_true]
        refine ⟨by simp [hc], ?_⟩
        rw [List.any_eq_true]
        exact ⟨r, List.mem_filter.mpr ⟨hr, by simp [hrm]⟩, by simp⟩
    rw [H.2.2 r.reminderId, if_pos hcond]

def rDue1 : Reminder := ⟨"r1", "mA", "b1", "bcg", 7200000, 3600000, "false", "daily"⟩

def rDue2 : Reminder := ⟨"r2", "mA", "b1", "polio", 7200000, 3600000, "false", "daily"⟩

def storeC4 : Store := fun k =>
  if k = "r1" then some rDue1 else if k = "r2" then some rDue2 else none

/-- Witness for `grouped_dispatch`: with two due reminders of mother `mA`,
the run issues exactly one combined email for `mA` and marks `r1` sent. -/
theorem grouped_dispatch_witness :
    ((processorRun mothersC2 (fun _ => true) [rDue1, rDue2] storeC4).emails.filter
        (fun p => p.1 == "mA"))
      = [("mA", combinedEmail "a@example.com" "Alice Doe"
            ([rDue1, rDue2].filter (fun r => r.motherId == "mA")))]
    ∧ (processorRun mothersC2 (fun _ => true) [rDue1, rDue2] storeC4).store "r1"
        = (storeC4 "r1").map setSentTrue :=
  ⟨(grouped_dispatch mothersC2 (fun _ => true) [rDue1, rDue2] storeC4 "mA"
      ("a@example.com", "Alice Doe") (fun _ => rfl) (by decide) (by decide)).1,
    (grouped_dispatch mothersC2 (fun _ => true) [rDue1, rDue2] storeC4 "mA"
      ("a@example.com", "Alice Doe") (fun _ => rfl) (by decide) (by decide)).2.2
      rDue1 (by decide) rfl⟩

/-! ## Claim C5: the administered-vaccine tracker -/

/-- An entry of a baby's `administered` list.  Entries written by the mark
route carry `id`, `markedAt` and `type`; entries bulk-appended by the init
route carry only `vaccine` and `date`, hence the optional fields. -/
structure AdEntry where
  id : Option String
  vaccine : String
  date : String
  markedAt : Option String
  type : Option String
deriving DecidableEq, Repr

/-- `POST /api/baby/:babyId/administered/mark` steps 3–6: read the list,
return it unchanged if some entry already has this (vaccine, date), else
append one new entry with a fresh uuid and a server timestamp. -/
def markAdministered (l : List AdEntry) (vaccine date : String)
    (uuid markedAt typ : String) : List AdEntry :=
  if l.any (fun entry => entry.vaccine == vaccine && entry.date == date) then l
  else l ++ [⟨some uuid, vaccine, date, some markedAt, some typ⟩]

/-- `POST /api/baby/:babyId/administered/init` steps 3–4: compute every
schedule entry whose projected date is strictly in the past and
`list_append` them, with no duplicate check. -/
def initAdministered (l : List AdEntry) (dob now : Int)
    (sched : List ScheduleEntry) : List AdEntry :=
  l ++ sched.filterMap (fun e =>
    if vaccinationDate dob e < now then
      some ⟨none, e.vaccine, dateOnlyStr (vaccinationDate dob e), none, none⟩
    else none)

/-- The spec invariant: no two entries share (vaccine, date). -/
def noDupVaccineDate : List AdEntry → Bool
  | [] => true
  | a :: rest =>
    !(rest.any (fun b => a.vaccine == b.vaccine && a.date == b.date))
      && noDupVaccineDate rest

/-- C5 is false as stated: the initialization variant appends its
past-vaccine entries without any duplicate check, so running it twice (a
sequence of operations of this core) leaves two entries with the same
(vaccine, date) pair, breaking the uniqueness invariant the claim asserts
for every operation sequence. -/
theorem administered_init_duplicates_counterexample :
    noDupVaccineDate
      (initAdministered
        (initAdministered [] 0 864000000 [⟨"birth", "bcg"⟩])
        0 864000000 [⟨"birth", "bcg"⟩]) = false
    ∧ (initAdministered
        (initAdministered [] 0 864000000 [⟨"birth", "bcg"⟩])
        0 864000000 [⟨"birth", "bcg"⟩]).length = 2 := by
  refine ⟨by decide, by decide⟩

theorem noDupVaccineDate_append_singleton (l : List AdEntry) (e : AdEntry)
    (h1 : noDupVaccineDate l = true)
    (h2 : ∀ a ∈ l, ¬(a.vaccine = e.vaccine ∧ a.date = e.date)) :
    noDupVaccineDate (l ++ [e]) = true := by
  induction l with
  | nil => rfl
  | cons a l ih =>
    rw [noDupVaccineDate, Bool.and_eq_true, Bool.not_eq_true'] at h1
    obtain ⟨ha, hl⟩ := h1
    rw [List.cons_append, noDupVaccineDate, Bool.and_eq_true, Bool.not_eq_true']
    constructor
    · rw [List.any_append, Bool.or_eq_false_iff]
      refine ⟨ha, ?_⟩
      rw [List.any_cons, List.any_nil, Bool.or_false]
      have hne := h2 a (List.mem_cons_self a l)
      by_cases hv : a.vaccine = e.vaccine
      · have hd : ¬ a.date = e.date := fun hd => hne ⟨hv, hd⟩
        simp [hd]
      · simp [hv]
    · exact ih hl (fun a2 ha2 => h2 a2 (List.mem_cons_of_mem a ha2))

/-- C5 (amended): `markAdministered` alone is idempotent — a second call
with the same (vaccine, date) returns the list unchanged — and preserves
the (vaccine, date) uniqueness invariant; the initialization route,
however, appends without any duplicate check, so the invariant only holds
for sequences of mark operations (see the counterexample for init). -/
theorem mark_administered_idempotent (l : List AdEntry)
    (v d u1 t1 y1 u2 t2 y2 : String) :
    markAdministered (markAdministered l v d u1 t1 y1) v d u2 t2 y2
        = markAdministered l v d u1 t1 y1
    ∧ (noDupVaccineDate l = true →
        noDupVaccineDate (markAdministered l v d u1 t1 y1) = true) := by
  by_cases h : l.any (fun entry => entry.vaccine == v && entry.date == d) = true
  · constructor
    · simp [markAdministered, h]
    · intro hl
      simpa [markAdministered, h] using hl
  · unfold markAdministered
    rw [if_neg h]
    have h2 : ((l ++ [(⟨some u1, v, d, some t1, some y1⟩ : AdEntry)]).any
        (fun entry => entry.vaccine == v && entry.date == d)) = true := by
      rw [List.any_append]
      simp
    rw [if_pos h2]
    refine ⟨rfl, ?_⟩
    intro hl
    apply noDupVaccineDate_append_singleton l _ hl
    intro a ha had
    exact h (List.any_eq_true.mpr ⟨a, ha, by simp [had.1, had.2]⟩)

/-- Witness for `mark_administered_idempotent`: marking (bcg, 2025-01-01)
twice on an initially empty list yields exactly the single-entry list, and
the uniqueness invariant holds afterwards. -/
theorem mark_administered_idempotent_witness :
    markAdministered (markAdministered [] "bcg" "2025-01-01" "u1" "t1" "manual")
        "bcg" "2025-01-01" "u2" "t2" "manual"
      = markAdministered [] "bcg" "2025-01-01" "u1" "t1" "manual"
    ∧ noDupVaccineDate
        (markAdministered [] "bcg" "2025-01-01" "u1" "t1" "manual") = true :=
  ⟨(mark_administered_idempotent [] "bcg" "2025-01-01" "u1" "t1" "manual"
      "u2" "t2" "manual").1,
    (mark_administered_idempotent [] "bcg" "2025-01-01" "u1" "t1" "manual"
      "u2" "t2" "manual").2 (by decide)⟩

/-! ## Claim C7: the Schedule Offset Calculator contract -/

/-- C7 is false as stated: `parseAgeToDays` is not integer-valued.  The
range form averages before multiplying and retains fractional days:
`"1-2 weeks"` evaluates to 10.5, which is no integer. -/
theorem offset_days_fractional_counterexample :
    parseAgeToDays "1-2 weeks" = 21 / 2
    ∧ ¬ ∃ n : ℤ, parseAgeToDays "1-2 weeks" = (n : ℚ) := by
  have h : parseAgeToDays "1-2 weeks" = 21 / 2 := by
    rw [parseAgeToDays_eq_halfDays]
    norm_num [show parseAgeToHalfDays "1-2 weeks" = 21 from rfl]
  refine ⟨h, ?_⟩
  rintro ⟨n, hn⟩
  rw [h] at hn
  have h2 : (21 : ℚ) = 2 * (n : ℚ) := by
    field_simp at hn
    linarith
  have h3 : (21 : ℤ) = 2 * n := by exact_mod_cast h2
  omega

/-- C7 (amended): `parseAgeToDays` is a pure, deterministic, total function
returning a nonnegative rational — always a half-integer but not always an
integer (see the counterexample) — never raising on unparseable input, and
the four sample values of the spec hold. -/
theorem offset_days_amended (s : String) :
    0 ≤ parseAgeToDays s
    ∧ parseAgeToDays "6 weeks" = 42
    ∧ parseAgeToDays "2-4 months" = 90
    ∧ parseAgeToDays "birth" = 0
    ∧ parseAgeToDays "bogus" = 0 := by
  refine ⟨?_, ?_, ?_, ?_, ?_⟩
  · rw [parseAgeToDays_eq_halfDays]
    positivity
  · rw [parseAgeToDays_eq_halfDays]
    norm_num [show parseAgeToHalfDays "6 weeks" = 84 from rfl]
  · rw [parseAgeToDays_eq_halfDays]
    norm_num [show parseAgeToHalfDays "2-4 months" = 180 from rfl]
  · rw [parseAgeToDays_eq_halfDays]
    norm_num [show parseAgeToHalfDays "birth" = 0 from rfl]
  · rw [parseAgeToDays_eq_halfDays]
    norm_num [show parseAgeToHalfDays "bogus" = 0 from rfl]

/-! ## Claim C10: the reminder read route ignores the requesting user -/

/-- `GET /api/reminder/:babyId`: runs behind `authenticateToken`, then
queries the `ByBaby` index with the path parameter only — the handler never
reads `req.user` and performs no ownership check — returning every reminder
of the baby, sent and unsent (the projection lists all item fields, so it
is the identity). -/
def getRemindersResponse (requestUser : String) (babyId : String)
    (table : List Reminder) : List Reminder :=
  table.filter (fun r => r.babyId == babyId)

/-- C10: the response of GET /api/reminder/:babyId is independent of which
authenticated user issues the request — there is no ownership check against
the baby's motherUserId (unlike POST /api/reminder/:babyId) — so any two
authenticated users receive the same full reminder list for the baby. -/
theorem get_reminders_user_independent (u1 u2 babyId : String)
    (table : List Reminder) :
    getRemindersResponse u1 babyId table = getRemindersResponse u2 babyId table :=
  rfl

end Chanjo
